import Mathlib

/-!
Verification of the dispatch core of the zodiac AI backend:
bounded request queue with worker pool (pkg/queue), circuit breaker
(pkg/circuitbreaker), token-bucket / retry AI caller
(services/ai-service/client), AI HTTP handler
(services/ai-service/handlers), and the sliding-window ingress limiter
(pkg/middleware/ratelimit.go).  Each definition is a shallow embedding of
the corresponding Go function; machine time instants are modelled as `Int`
(seconds), counters as `Nat`.
-/

/-! ## Bounded request queue (pkg/queue, `src/unnamed/part_003`) -/

/-- Errors returned by `Enqueue` (`ErrQueueFull`, `ErrQueueClosed`). -/
inductive QueueError where
  | queueFull
  | queueClosed
deriving DecidableEq, Repr

/-- Configuration of `NewRequestQueue` (QueueSize and Workers are Go ints,
which may be non-positive and are then replaced by defaults). -/
structure QueueConfig where
  queueSize : Int
  workers : Int
deriving Repr

/-- State of a `RequestQueue`: the buffered channel content (`queue`,
front of the list = next to be dequeued), its capacity, the `closed` flag,
the four metric counters, and the number of requests a worker has dequeued
but not yet finished (`inFlight`, the spec's in-flight count). -/
structure RequestQueue (α : Type) where
  queue : List α
  capacity : Nat
  closed : Bool
  totalEnqueued : Nat
  totalProcessed : Nat
  totalFailed : Nat
  totalDropped : Nat
  inFlight : Nat
deriving Repr

/-- `NewRequestQueue`: non-positive QueueSize falls back to 1000
(Workers similarly falls back to 10 but workers do not appear in the
state we reason about). -/
def newRequestQueue (α : Type) (cfg : QueueConfig) : RequestQueue α :=
  { queue := []
    capacity := if cfg.queueSize ≤ 0 then 1000 else cfg.queueSize.toNat
    closed := false
    totalEnqueued := 0
    totalProcessed := 0
    totalFailed := 0
    totalDropped := 0
    inFlight := 0 }

/-- `Enqueue`: if the queue is closed return `ErrQueueClosed` untouched;
otherwise a single non-blocking offer into the bounded channel — if there
is room the request is appended and `totalEnqueued` incremented, else
`totalDropped` is incremented and `ErrQueueFull` returned. -/
def enqueue {α : Type} (q : RequestQueue α) (req : α) :
    RequestQueue α × Option QueueError :=
  if q.closed then
    (q, some .queueClosed)
  else if q.queue.length < q.capacity then
    ({ q with queue := q.queue ++ [req],
              totalEnqueued := q.totalEnqueued + 1 }, none)
  else
    ({ q with totalDropped := q.totalDropped + 1 }, some .queueFull)

/-- A worker dequeues the front request (the buffered channel delivers
remaining items even after close); the request becomes in-flight.  With an
empty channel the worker blocks, modelled as a no-op step. -/
def workerDequeue {α : Type} (q : RequestQueue α) : RequestQueue α :=
  match q.queue with
  | [] => q
  | _ :: rest => { q with queue := rest, inFlight := q.inFlight + 1 }

/-- End of `processRequest` for one in-flight request: `totalProcessed`
on success, `totalFailed` on processor error, cancelled context, or
recovered panic (all three failure paths of the source increment
`totalFailed` exactly once). -/
def finishRequest {α : Type} (q : RequestQueue α) (ok : Bool) :
    RequestQueue α :=
  match q.inFlight with
  | 0 => q
  | n + 1 =>
    if ok then
      { q with inFlight := n, totalProcessed := q.totalProcessed + 1 }
    else
      { q with inFlight := n, totalFailed := q.totalFailed + 1 }

/-- Abstract queue operations: an enqueue attempt, a worker dequeue, and
the completion of an in-flight request. -/
inductive QueueOp (α : Type) where
  | enq (req : α)
  | deq
  | fin (ok : Bool)

/-- One operation step on the queue state. -/
def queueStep {α : Type} (q : RequestQueue α) : QueueOp α → RequestQueue α
  | .enq r => (enqueue q r).1
  | .deq => workerDequeue q
  | .fin ok => finishRequest q ok

/-- Run a sequence of queue operations from a fresh queue. -/
def runQueue (α : Type) (cfg : QueueConfig) (ops : List (QueueOp α)) :
    RequestQueue α :=
  ops.foldl queueStep (newRequestQueue α cfg)

/-! ## Circuit breaker (src/pkg/circuitbreaker/circuit_breaker.go) -/

/-- Circuit state: `StateClosed`, `StateOpen`, `StateHalfOpen`. -/
inductive CBState where
  | closed
  | open
  | halfOpen
deriving DecidableEq, Repr

/-- Distinguished errors `ErrCircuitOpen` and `ErrTooManyRequests`. -/
inductive CBError where
  | circuitOpen
  | tooManyRequests
deriving DecidableEq, Repr

/-- `circuitbreaker.Config` (Go ints / durations, possibly non-positive). -/
structure CBConfig where
  maxFailures : Int
  resetTimeout : Int
  halfOpenMaxReqs : Int
deriving Repr

/-- `CircuitBreaker` state: configuration plus `state`, consecutive
`failures`, `lastFailureTime` (an instant, seconds), `halfOpenReqs`. -/
structure CircuitBreaker where
  maxFailures : Nat
  resetTimeout : Int
  halfOpenMaxReqs : Nat
  state : CBState
  failures : Nat
  lastFailureTime : Int
  halfOpenReqs : Nat
deriving DecidableEq, Repr

/-- `NewCircuitBreaker`: non-positive settings fall back to the defaults
5 failures / 60 s / 1 half-open request; initial state is Closed. -/
def newCircuitBreaker (cfg : CBConfig) : CircuitBreaker :=
  { maxFailures := if cfg.maxFailures ≤ 0 then 5 else cfg.maxFailures.toNat
    resetTimeout := if cfg.resetTimeout ≤ 0 then 60 else cfg.resetTimeout
    halfOpenMaxReqs :=
      if cfg.halfOpenMaxReqs ≤ 0 then 1 else cfg.halfOpenMaxReqs.toNat
    state := .closed
    failures := 0
    lastFailureTime := 0
    halfOpenReqs := 0 }

/-- `beforeRequest` at instant `now`: Closed admits; Open admits (moving
to HalfOpen with `halfOpenReqs := 0`) only when more than `resetTimeout`
has elapsed since `lastFailureTime`, else rejects with `ErrCircuitOpen`;
HalfOpen rejects with `ErrTooManyRequests` once `halfOpenReqs` has reached
`halfOpenMaxReqs`, else counts the probe and admits. -/
def beforeRequest (cb : CircuitBreaker) (now : Int) :
    CircuitBreaker × Option CBError :=
  match cb.state with
  | .closed => (cb, none)
  | .open =>
    if now - cb.lastFailureTime > cb.resetTimeout then
      ({ cb with state := .halfOpen, halfOpenReqs := 0 }, none)
    else
      (cb, some .circuitOpen)
  | .halfOpen =>
    if cb.halfOpenReqs ≥ cb.halfOpenMaxReqs then
      (cb, some .tooManyRequests)
    else
      ({ cb with halfOpenReqs := cb.halfOpenReqs + 1 }, none)

/-- `afterRequest` at instant `now`: on failure increment `failures` and
stamp `lastFailureTime`, then go Open from HalfOpen, or from Closed once
`failures ≥ maxFailures`; on success, HalfOpen closes the circuit and
resets all counters, Closed resets `failures`, Open is left unchanged. -/
def afterRequest (cb : CircuitBreaker) (now : Int) (failed : Bool) :
    CircuitBreaker :=
  if failed then
    let cb1 := { cb with failures := cb.failures + 1, lastFailureTime := now }
    if cb1.state = .halfOpen then
      { cb1 with state := .open }
    else if cb1.failures ≥ cb1.maxFailures then
      { cb1 with state := .open }
    else
      cb1
  else
    if cb.state = .halfOpen then
      { cb with state := .closed, failures := 0, halfOpenReqs := 0 }
    else if cb.state = .closed then
      { cb with failures := 0 }
    else
      cb

/-- Outcome of `Execute`: the gate rejected the call (fn not invoked), or
fn ran and failed/succeeded. -/
inductive ExecOutcome where
  | rejected (e : CBError)
  | executed (failed : Bool)
deriving DecidableEq, Repr

/-- `Execute` at instant `now`, where `fnFails` tells whether the guarded
function would return an error: `beforeRequest`, then — only if admitted —
run fn and apply `afterRequest` to its result. -/
def cbExecute (cb : CircuitBreaker) (now : Int) (fnFails : Bool) :
    CircuitBreaker × ExecOutcome :=
  match beforeRequest cb now with
  | (cb1, some e) => (cb1, .rejected e)
  | (cb1, none) => (afterRequest cb1 now fnFails, .executed fnFails)

/-- `Reset`: administrative return to Closed with counters cleared. -/
def cbReset (cb : CircuitBreaker) : CircuitBreaker :=
  { cb with state := .closed, failures := 0, halfOpenReqs := 0 }

/-- Fold a list of failing `Execute` calls (one per instant). -/
def runFailures (cb : CircuitBreaker) (times : List Int) : CircuitBreaker :=
  times.foldl (fun s t => (cbExecute s t true).1) cb

/-! ## AI caller (services/ai-service/client, `src/unnamed/part_004`) -/

/-- Errors of the Gemini client: `ErrInvalidPrompt`, `ErrAIUnavailable`. -/
inductive GenError where
  | invalidPrompt
  | aiUnavailable
deriving DecidableEq, Repr

/-- Observable trace of one `GenerateContent` call: the backoff sleeps
performed (seconds, in order), the number of upstream invocations, and
the returned text or error. -/
structure GenTrace where
  delays : List Nat
  attempts : Nat
  result : Except GenError String
deriving Repr

/-- `GeminiClient` fields that govern the retry loop. -/
structure GeminiClient where
  model : String
  maxRetries : Nat
  baseDelay : Nat
deriving Repr

/-- `NewGeminiClient`: model gemini-2.0-flash-exp, 3 retries, 1 s base
delay. -/
def newGeminiClient : GeminiClient :=
  { model := "gemini-2.0-flash-exp", maxRetries := 3, baseDelay := 1 }

/-- The retry loop body of `GenerateContent`: `upstream i` is the outcome
of the i-th provider invocation (`some text` on success, `none` on error,
which includes the 30 s per-attempt timeout).  Before every attempt but
the first, sleep `baseDelay * 2 ^ (attempt - 1)` seconds; stop at the
first success; exhausting `remaining` attempts yields `ErrAIUnavailable`. -/
def genAttempts (c : GeminiClient) (upstream : Nat → Option String) :
    Nat → Nat → GenTrace
  | _, 0 => ⟨[], 0, .error .aiUnavailable⟩
  | attempt, remaining + 1 =>
    let ds : List Nat :=
      if attempt > 0 then [c.baseDelay * 2 ^ (attempt - 1)] else []
    match upstream attempt with
    | some text => ⟨ds, 1, .ok text⟩
    | none =>
      let t := genAttempts c upstream (attempt + 1) remaining
      ⟨ds ++ t.delays, t.attempts + 1, t.result⟩

/-- `GenerateContent`: the empty prompt is rejected with
`ErrInvalidPrompt` before any attempt; otherwise at most `maxRetries`
attempts are invoked directly on the provider (the source wires neither
the circuit breaker nor the token-bucket limiter into this loop). -/
def generateContent (c : GeminiClient) (upstream : Nat → Option String)
    (prompt : String) : GenTrace :=
  if prompt = "" then ⟨[], 0, .error .invalidPrompt⟩
  else genAttempts c upstream 0 c.maxRetries

/-- `getZodiacTraits`: trait phrase per zodiac tag, with a default. -/
def getZodiacTraits (sign : String) : String :=
  if sign = "Aries" then "passionate, confident, determined, and courageous"
  else if sign = "Taurus" then "reliable, patient, devoted, and practical"
  else if sign = "Gemini" then "adaptable, outgoing, intelligent, and curious"
  else if sign = "Cancer" then "intuitive, emotional, protective, and nurturing"
  else if sign = "Leo" then "creative, passionate, generous, and warm-hearted"
  else if sign = "Virgo" then "loyal, analytical, hardworking, and practical"
  else if sign = "Libra" then "diplomatic, gracious, fair-minded, and social"
  else if sign = "Scorpio" then "resourceful, brave, passionate, and determined"
  else if sign = "Sagittarius" then "generous, idealistic, great sense of humor, and adventurous"
  else if sign = "Capricorn" then "responsible, disciplined, self-controlled, and ambitious"
  else if sign = "Aquarius" then "progressive, original, independent, and humanitarian"
  else if sign = "Pisces" then "compassionate, artistic, intuitive, and gentle"
  else "empathetic and understanding"

/-- `buildChatPrompt` (part_004 variant): the fixed template with the
zodiac tag, its traits, and the user message spliced in. -/
def buildChatPrompt (zodiacSign userMessage : String) : String :=
  "Kamu adalah AI companion yang ramah dan bisa diajak ngobrol santai.\nKamu punya sedikit karakteristik zodiak " ++
  zodiacSign ++ " (" ++ getZodiacTraits zodiacSign ++
  "), tapi jangan terlalu berlebihan atau alay.\n\nRespon dengan natural seperti teman yang ngobrol biasa:\n- Jangan terlalu formal atau kaku\n- Jangan terlalu dramatis atau puitis\n- Fokus pada apa yang user tanyakan/ceritakan\n- Kasih respon yang relevan dengan pesan mereka\n- Boleh santai tapi tetap supportive\n\nPesan user: " ++
  userMessage ++
  "\n\nRespon dalam bahasa Indonesia yang natural dan casual (max 100 kata)."

/-- `buildInsightPrompt`: fixed template around the chat history. -/
def buildInsightPrompt (chatHistory : String) : String :=
  "Analyze this conversation and extract a profound life lesson or insight.\nCreate a short, inspirational message (max 200 words) that could help others facing similar situations.\n\nConversation:\n" ++
  chatHistory ++
  "\n\nGenerate a wisdom-filled insight that:\n1. Identifies the core emotional theme\n2. Offers a universal life lesson\n3. Provides hope and encouragement\n4. Is relatable to others\n\nFormat: A single paragraph of wisdom in Bahasa Indonesia. Make it profound and shareable."

/-- `getFallbackChatResponse` (part_004 variant): the per-zodiac fallback
table with a generic default. -/
def getFallbackChatResponse (zodiacSign : String) : String :=
  if zodiacSign = "Aries" then "Halo! Maaf nih, lagi ada gangguan sebentar. Tapi aku di sini kok, siap dengerin kamu."
  else if zodiacSign = "Taurus" then "Hai! Ada yang bisa aku bantu? Cerita aja, aku dengerin."
  else if zodiacSign = "Gemini" then "Halo! Gimana kabarnya? Ada yang mau diobrolin?"
  else if zodiacSign = "Cancer" then "Hai! Aku di sini kalau kamu mau cerita atau butuh temen ngobrol."
  else if zodiacSign = "Leo" then "Halo! Ada yang bisa aku bantu hari ini?"
  else if zodiacSign = "Virgo" then "Hai! Cerita aja kalau ada yang mau dibahas, aku siap dengerin."
  else if zodiacSign = "Libra" then "Halo! Gimana hari ini? Ada yang mau diceritain?"
  else if zodiacSign = "Scorpio" then "Hai! Aku di sini kalau kamu butuh temen ngobrol."
  else if zodiacSign = "Sagittarius" then "Halo! Ada yang mau dibahas? Cerita aja santai."
  else if zodiacSign = "Capricorn" then "Hai! Gimana kabarnya? Aku siap dengerin kalau ada yang mau diceritain."
  else if zodiacSign = "Aquarius" then "Halo! Ada yang bisa aku bantu? Ngobrol aja santai."
  else if zodiacSign = "Pisces" then "Hai! Aku di sini kalau kamu butuh temen cerita."
  else "Halo! Ada yang bisa aku bantu? Cerita aja santai."

/-- `getFallbackInsight`: the fixed fallback insight text. -/
def getFallbackInsight : String :=
  "Setiap percakapan adalah cerminan dari perjalanan hidup kita. Dalam berbagi cerita dan perasaan, kita menemukan kekuatan untuk terus maju. Ingatlah bahwa setiap tantangan adalah kesempatan untuk tumbuh, dan setiap emosi yang kita rasakan adalah bagian dari kemanusiaan kita. Teruslah berbicara, teruslah berbagi, dan teruslah percaya bahwa hari esok membawa harapan baru."

/-- The twelve legal zodiac tags, in the order of the source tables. -/
def legalZodiacTags : List String :=
  ["Aries", "Taurus", "Gemini", "Cancer", "Leo", "Virgo",
   "Libra", "Scorpio", "Sagittarius", "Capricorn", "Aquarius", "Pisces"]

/-- `GenerateChatResponse`: build the chat prompt, call
`GenerateContent`; on any error substitute the zodiac fallback and report
no error to the caller. -/
def generateChatResponse (c : GeminiClient) (upstream : Nat → Option String)
    (zodiacSign userMessage : String) : String × Option GenError :=
  match (generateContent c upstream (buildChatPrompt zodiacSign userMessage)).result with
  | .ok text => (text, none)
  | .error _ => (getFallbackChatResponse zodiacSign, none)

/-- `GenerateInsight`: build the insight prompt, call `GenerateContent`;
on any error substitute the generic fallback insight and report no error. -/
def generateInsight (c : GeminiClient) (upstream : Nat → Option String)
    (chatHistory : String) : String × Option GenError :=
  match (generateContent c upstream (buildInsightPrompt chatHistory)).result with
  | .ok text => (text, none)
  | .error _ => (getFallbackInsight, none)

/-! ## AI chat handler (src/services/ai-service/handlers/ai_handler.go) -/

/-- HTTP status chosen by `GenerateChatResponse` (the handler) when
`Enqueue` fails: `ErrQueueFull` maps to 429 Too Many Requests; every
other enqueue error (in particular `ErrQueueClosed`) falls through to
`response.InternalServerError`, which is 500. -/
def enqueueFailureStatus (e : QueueError) : Nat :=
  match e with
  | .queueFull => 429
  | _ => 500

/-- The handler admission step: enqueue the request; on failure return
the mapped HTTP status. -/
def handlerEnqueue {α : Type} (q : RequestQueue α) (req : α) :
    RequestQueue α × Option Nat :=
  match enqueue q req with
  | (q1, none) => (q1, none)
  | (q1, some e) => (q1, some (enqueueFailureStatus e))

/-! ## Sliding-window ingress limiter (src/pkg/middleware/ratelimit.go) -/

/-- The per-identifier body of `allow`: prune timestamps not strictly
inside the trailing window (`ts.After(now - window)` keeps `ts >
now - window`), deny when `limit` many remain, else append `now`. -/
def allowEntry (timestamps : List Int) (now window : Int) (limit : Nat) :
    List Int × Bool :=
  let valid := timestamps.filter (fun ts => decide (now - window < ts))
  if limit ≤ valid.length then (valid, false)
  else (valid ++ [now], true)

/-- `allow` on the full identifier map (a missing identifier starts from
the empty timestamp list, as the source inserts a fresh entry). -/
def rlAllow (requests : String → List Int) (id : String)
    (now window : Int) (limit : Nat) :
    (String → List Int) × Bool :=
  let entry := allowEntry (requests id) now window limit
  (fun k => if k = id then entry.1 else requests k, entry.2)

/-! ## Helper lemmas -/

/-- With an upstream that fails every attempt, a non-empty prompt runs the
full retry loop: sleeps of 1 s and 2 s, three attempts, `ErrAIUnavailable`. -/
lemma generateContent_allFail (u : Nat → Option String)
    (hu : ∀ i, u i = none) (p : String) (hp : p ≠ "") :
    generateContent newGeminiClient u p = ⟨[1, 2], 3, .error .aiUnavailable⟩ := by
  simp [generateContent, hp, newGeminiClient, genAttempts, hu 0, hu 1, hu 2]

/-- The retry loop returns the first successful attempt's text, having
slept only the backoff steps before that attempt. -/
lemma generateContent_firstSuccess (u : Nat → Option String) (p : String)
    (hp : p ≠ "") (i : Nat) (t : String) (hi : i < 3)
    (hbefore : ∀ j, j < i → u j = none) (hit : u i = some t) :
    generateContent newGeminiClient u p = ⟨List.take i [1, 2], i + 1, .ok t⟩ := by
  match i, hi with
  | 0, _ =>
    simp [generateContent, hp, newGeminiClient, genAttempts, hit]
  | 1, _ =>
    simp [generateContent, hp, newGeminiClient, genAttempts,
      hbefore 0 (by omega), hit]
  | 2, _ =>
    simp [generateContent, hp, newGeminiClient, genAttempts,
      hbefore 0 (by omega), hbefore 1 (by omega), hit]

/-- Any `GenerateContent` call against an always-failing upstream ends in
an error (of one of the two kinds). -/
lemma generateContent_allFail_isError (u : Nat → Option String)
    (hu : ∀ i, u i = none) (p : String) :
    ∃ e, (generateContent newGeminiClient u p).result = .error e := by
  by_cases hp : p = ""
  · exact ⟨.invalidPrompt, by simp [generateContent, hp]⟩
  · exact ⟨.aiUnavailable, by rw [generateContent_allFail u hu p hp]⟩

/-- Folding plain enqueues into a queue. -/
def enqueueAll {α : Type} (q : RequestQueue α) (rs : List α) : RequestQueue α :=
  rs.foldl (fun s r => (enqueue s r).1) q

lemma runQueue_enqs {α : Type} (cfg : QueueConfig) (rs : List α) :
    runQueue α cfg (rs.map QueueOp.enq) = enqueueAll (newRequestQueue α cfg) rs := by
  simp [runQueue, enqueueAll, List.foldl_map, queueStep]

/-- While there is room, every offer is accepted: the requests are all
appended in order, `totalEnqueued` grows by their number, and all other
fields are unchanged. -/
lemma enqueueAll_fields {α : Type} (rs : List α) :
    ∀ q : RequestQueue α, q.closed = false →
    q.queue.length + rs.length ≤ q.capacity →
    (enqueueAll q rs).queue = q.queue ++ rs ∧
    (enqueueAll q rs).capacity = q.capacity ∧
    (enqueueAll q rs).closed = false ∧
    (enqueueAll q rs).totalEnqueued = q.totalEnqueued + rs.length ∧
    (enqueueAll q rs).totalDropped = q.totalDropped := by
  induction rs with
  | nil => intro q h1 h2; simp [enqueueAll, h1]
  | cons r rest ih =>
    intro q h1 h2
    have hlt : q.queue.length < q.capacity := by
      simp only [List.length_cons] at h2; omega
    have hstep : (enqueue q r).1 =
        { q with queue := q.queue ++ [r],
                 totalEnqueued := q.totalEnqueued + 1 } := by
      simp [enqueue, h1, hlt]
    have hrw : enqueueAll q (r :: rest) = enqueueAll (enqueue q r).1 rest := by
      simp [enqueueAll]
    rw [hrw, hstep]
    have hle : (q.queue ++ [r]).length + rest.length ≤ q.capacity := by
      simp only [List.length_append, List.length_cons, List.length_nil]
      simp only [List.length_cons] at h2
      omega
    have ih2 := ih { q with queue := q.queue ++ [r],
                            totalEnqueued := q.totalEnqueued + 1 }
      (by simp [h1]) hle
    simp only [List.length_cons]
    refine ⟨?_, ?_, ?_, ?_, ?_⟩
    · rw [ih2.1]; simp
    · rw [ih2.2.1]
    · exact ih2.2.2.1
    · rw [ih2.2.2.2.1]; simp; omega
    · exact ih2.2.2.2.2

/-- Invariant carried by every reachable queue state: the depth never
exceeds the capacity, and accepted requests are accounted for exactly
once — still queued, in flight, processed, or failed. -/
def QueueInv {α : Type} (q : RequestQueue α) : Prop :=
  q.queue.length ≤ q.capacity ∧
  q.totalEnqueued = q.totalProcessed + q.totalFailed + q.inFlight + q.queue.length

lemma queueStep_inv {α : Type} (q : RequestQueue α) (op : QueueOp α)
    (h : QueueInv q) : QueueInv (queueStep q op) := by
  obtain ⟨qs, cap, cl, te, tp, tf, td, fl⟩ := q
  obtain ⟨hb, hc⟩ := h
  simp only [QueueInv] at hb hc ⊢
  cases op with
  | enq r =>
    cases cl with
    | true =>
      simp [queueStep, enqueue]
      omega
    | false =>
      by_cases h2 : qs.length < cap
      · simp [queueStep, enqueue, h2]
        omega
      · simp [queueStep, enqueue, h2]
        omega
  | deq =>
    cases qs with
    | nil =>
      simp only [List.length_nil] at hb hc
      simp [queueStep, workerDequeue]
      omega
    | cons x rest =>
      simp only [List.length_cons] at hb hc
      simp [queueStep, workerDequeue]
      omega
  | fin ok =>
    cases fl with
    | zero =>
      simp [queueStep, finishRequest]
      omega
    | succ n =>
      cases ok <;> (simp [queueStep, finishRequest]; omega)

lemma foldl_queueStep_inv {α : Type} :
    ∀ (ops : List (QueueOp α)) (q : RequestQueue α),
    QueueInv q → QueueInv (ops.foldl queueStep q) := by
  intro ops
  induction ops with
  | nil => intro q h; simpa using h
  | cons op rest ih =>
    intro q h
    rw [List.foldl_cons]
    exact ih _ (queueStep_inv q op h)

lemma runQueue_inv {α : Type} (cfg : QueueConfig) (ops : List (QueueOp α)) :
    QueueInv (runQueue α cfg ops) := by
  have hstart : QueueInv (newRequestQueue α cfg) := by
    constructor <;> simp [newRequestQueue]
  exact foldl_queueStep_inv ops _ hstart

/-- A failing `Execute` from Closed is admitted, increments `failures`,
stamps `lastFailureTime`, and opens the circuit exactly when the new
count reaches `maxFailures`. -/
lemma cbExecute_fail_closed (cb : CircuitBreaker) (t : Int)
    (hst : cb.state = .closed) :
    (cbExecute cb t true).1 =
      { cb with failures := cb.failures + 1, lastFailureTime := t,
                state := if cb.maxFailures ≤ cb.failures + 1 then .open
                         else .closed } ∧
    (cbExecute cb t true).2 = .executed true := by
  obtain ⟨mf, rt, hm, st, f, lft, hr⟩ := cb
  simp only at hst
  subst hst
  by_cases hge : mf ≤ f + 1
  · simp [cbExecute, beforeRequest, afterRequest, hge]
  · simp [cbExecute, beforeRequest, afterRequest, hge]

/-- From Closed, any `Execute` is admitted and runs the function. -/
lemma cbExecute_closed_admits (cb : CircuitBreaker) (t : Int) (b : Bool)
    (hst : cb.state = .closed) :
    (cbExecute cb t b).2 = .executed b := by
  obtain ⟨mf, rt, hm, st, f, lft, hr⟩ := cb
  simp only at hst
  subst hst
  simp [cbExecute, beforeRequest]

/-- A run of failing calls that stays short of `maxFailures` keeps the
circuit Closed, accumulates the failures, and touches no other counter
or setting. -/
lemma runFailures_closed (ts : List Int) :
    ∀ cb : CircuitBreaker, cb.state = .closed →
    cb.failures + ts.length < cb.maxFailures →
    (runFailures cb ts).state = .closed ∧
    (runFailures cb ts).failures = cb.failures + ts.length ∧
    (runFailures cb ts).maxFailures = cb.maxFailures ∧
    (runFailures cb ts).resetTimeout = cb.resetTimeout ∧
    (runFailures cb ts).halfOpenMaxReqs = cb.halfOpenMaxReqs ∧
    (runFailures cb ts).halfOpenReqs = cb.halfOpenReqs := by
  induction ts with
  | nil => intro cb h1 h2; simp [runFailures, h1]
  | cons t rest ih =>
    intro cb h1 h2
    simp only [List.length_cons] at h2
    have hlt : ¬ (cb.maxFailures ≤ cb.failures + 1) := by omega
    have hstep := cbExecute_fail_closed cb t h1
    have hrw : runFailures cb (t :: rest) = runFailures (cbExecute cb t true).1 rest := by
      simp [runFailures]
    rw [hrw, hstep.1]
    have := ih { cb with failures := cb.failures + 1, lastFailureTime := t,
                         state := if cb.maxFailures ≤ cb.failures + 1 then .open
                                  else .closed }
      (by simp [hlt]) (by simp; omega)
    have harith : cb.failures + 1 + rest.length = cb.failures + (rest.length + 1) := by
      omega
    simpa [hlt, harith] using this

/-- A run of exactly `maxFailures` failing calls from Closed (with zero
prior failures contributing `cb.failures`) ends Open with
`lastFailureTime` stamped by the final failure. -/
lemma runFailures_opens (ts : List Int) (tl : Int) (cb : CircuitBreaker)
    (hst : cb.state = .closed)
    (hlen : cb.failures + ts.length + 1 = cb.maxFailures) :
    (runFailures cb (ts ++ [tl])).state = .open ∧
    (runFailures cb (ts ++ [tl])).failures = cb.maxFailures ∧
    (runFailures cb (ts ++ [tl])).lastFailureTime = tl ∧
    (runFailures cb (ts ++ [tl])).maxFailures = cb.maxFailures ∧
    (runFailures cb (ts ++ [tl])).resetTimeout = cb.resetTimeout ∧
    (runFailures cb (ts ++ [tl])).halfOpenMaxReqs = cb.halfOpenMaxReqs ∧
    (runFailures cb (ts ++ [tl])).halfOpenReqs = cb.halfOpenReqs := by
  have hmid := runFailures_closed ts cb hst (by omega)
  have hrw : runFailures cb (ts ++ [tl]) =
      (cbExecute (runFailures cb ts) tl true).1 := by
    simp [runFailures, List.foldl_append]
  obtain ⟨hs, hf, hmf, hrt, hhm, hhr⟩ := hmid
  have hstep := cbExecute_fail_closed (runFailures cb ts) tl hs
  have hge : (runFailures cb ts).maxFailures ≤ (runFailures cb ts).failures + 1 := by
    rw [hf, hmf]; omega
  rw [hrw, hstep.1]
  simp [hge, hf, hmf, hrt, hhm, hhr]
  omega

/-- An Open breaker whose quiet time exceeds `resetTimeout` admits the
next call as a half-open probe with the probe counter reset to zero. -/
lemma beforeRequest_open_expired (cb : CircuitBreaker) (now : Int)
    (hst : cb.state = .open) (hq : now - cb.lastFailureTime > cb.resetTimeout) :
    beforeRequest cb now = ({ cb with state := .halfOpen, halfOpenReqs := 0 }, none) := by
  obtain ⟨mf, rt, hm, st, f, lft, hr⟩ := cb
  simp only at hst
  subst hst
  simp only at hq
  simp [beforeRequest, hq]

/-- A successful probe after the quiet time closes the circuit and
resets all counters. -/
lemma cbExecute_probe_success (cb : CircuitBreaker) (now : Int)
    (hst : cb.state = .open) (hq : now - cb.lastFailureTime > cb.resetTimeout) :
    cbExecute cb now false =
      ({ cb with state := .closed, failures := 0, halfOpenReqs := 0 },
       .executed false) := by
  obtain ⟨mf, rt, hm, st, f, lft, hr⟩ := cb
  simp only at hst
  subst hst
  simp only at hq
  simp [cbExecute, beforeRequest, afterRequest, hq]

/-- A failing probe after the quiet time re-opens the circuit. -/
lemma cbExecute_probe_failure (cb : CircuitBreaker) (now : Int)
    (hst : cb.state = .open) (hq : now - cb.lastFailureTime > cb.resetTimeout) :
    cbExecute cb now true =
      ({ cb with state := .open, failures := cb.failures + 1,
                 lastFailureTime := now, halfOpenReqs := 0 },
       .executed true) := by
  obtain ⟨mf, rt, hm, st, f, lft, hr⟩ := cb
  simp only at hst
  subst hst
  simp only at hq
  simp [cbExecute, beforeRequest, afterRequest, hq]

/-! ## Claim theorems -/

/-- C1.  The spec states that every retry attempt of `GenerateContent`
runs through the circuit breaker's `Execute` and first blocks on the
shared token-bucket limiter.  The source retry loop invokes the provider
directly: `generateContent` is a function of the client, the upstream and
the prompt alone — with an always-failing upstream it performs all three
upstream invocations, although a breaker in the Open state inside its
quiet period (here: 5 prior failures at instant 0, called at instant 30
with a 60 s reset timeout) would have rejected the very first attempt
with `ErrCircuitOpen`. -/
theorem generateContent_ignores_breaker_and_limiter :
    (generateContent newGeminiClient (fun _ => none) "hi").attempts = 3 ∧
    (cbExecute ⟨5, 60, 1, .open, 5, 0, 0⟩ 30 true).2 = .rejected .circuitOpen := by
  exact ⟨rfl, rfl⟩

/-- C2.  Enqueue is a single non-blocking offer, the queue depth never
exceeds the configured capacity (default 1000), and once capacity many
requests have been enqueued with none dequeued, the next `Enqueue`
returns `ErrQueueFull` leaving the state unchanged except for the
`totalDropped` counter. -/
theorem enqueue_nonblocking_bound_full {α : Type} (cfg : QueueConfig)
    (ops : List (QueueOp α)) (rs : List α) (r : α)
    (hlen : rs.length = (newRequestQueue α cfg).capacity) :
    (runQueue α cfg ops).queue.length ≤ (runQueue α cfg ops).capacity ∧
    (newRequestQueue α { queueSize := 0, workers := 0 }).capacity = 1000 ∧
    (runQueue α cfg (rs.map QueueOp.enq)).queue.length =
      (runQueue α cfg (rs.map QueueOp.enq)).capacity ∧
    enqueue (runQueue α cfg (rs.map QueueOp.enq)) r =
      ({ runQueue α cfg (rs.map QueueOp.enq) with
         totalDropped := (runQueue α cfg (rs.map QueueOp.enq)).totalDropped + 1 },
       some QueueError.queueFull) := by
  have hfields := enqueueAll_fields rs (newRequestQueue α cfg)
    (by simp [newRequestQueue]) (by simpa [newRequestQueue] using hlen.le)
  obtain ⟨hq, hcap, hcl, hte, htd⟩ := hfields
  have hdepth : (runQueue α cfg (rs.map QueueOp.enq)).queue.length =
      (runQueue α cfg (rs.map QueueOp.enq)).capacity := by
    rw [runQueue_enqs, hq, hcap, ← hlen]
    simp [newRequestQueue]
  refine ⟨(runQueue_inv cfg ops).1, by simp [newRequestQueue], hdepth, ?_⟩
  have hclosed : (runQueue α cfg (rs.map QueueOp.enq)).closed = false := by
    rw [runQueue_enqs]; exact hcl
  have hnotlt : ¬ ((runQueue α cfg (rs.map QueueOp.enq)).queue.length <
      (runQueue α cfg (rs.map QueueOp.enq)).capacity) := by
    rw [hdepth]; omega
  simp [enqueue, hclosed, hnotlt]

/-- Witness for C2 at capacity 2 with requests [5, 6] and overflow 7. -/
theorem enqueue_nonblocking_bound_full_witness :
    (runQueue Nat ⟨2, 1⟩ [QueueOp.enq 1, QueueOp.deq, QueueOp.fin true]).queue.length ≤
      (runQueue Nat ⟨2, 1⟩ [QueueOp.enq 1, QueueOp.deq, QueueOp.fin true]).capacity ∧
    (newRequestQueue Nat { queueSize := 0, workers := 0 }).capacity = 1000 ∧
    (runQueue Nat ⟨2, 1⟩ ([5, 6].map QueueOp.enq)).queue.length =
      (runQueue Nat ⟨2, 1⟩ ([5, 6].map QueueOp.enq)).capacity ∧
    enqueue (runQueue Nat ⟨2, 1⟩ ([5, 6].map QueueOp.enq)) 7 =
      ({ runQueue Nat ⟨2, 1⟩ ([5, 6].map QueueOp.enq) with
         totalDropped := (runQueue Nat ⟨2, 1⟩ ([5, 6].map QueueOp.enq)).totalDropped + 1 },
       some QueueError.queueFull) :=
  enqueue_nonblocking_bound_full ⟨2, 1⟩ [QueueOp.enq 1, QueueOp.deq, QueueOp.fin true]
    [5, 6] 7 (by decide)

/-- C3.  From Closed, `maxFailures` consecutive failed `Execute` calls
leave the breaker Open; the first call more than `resetTimeout` after the
last failure is admitted as a half-open probe with the probe counter
reset to zero; a successful probe closes the circuit with all counters
reset and subsequent calls are admitted; a failing probe re-opens it. -/
theorem breaker_recovery (cfg : CBConfig) (ts : List Int) (tl now t2 : Int)
    (b2 : Bool)
    (hlen : ts.length + 1 = (newCircuitBreaker cfg).maxFailures)
    (hquiet : now - tl > (newCircuitBreaker cfg).resetTimeout) :
    (runFailures (newCircuitBreaker cfg) (ts ++ [tl])).state = .open ∧
    beforeRequest (runFailures (newCircuitBreaker cfg) (ts ++ [tl])) now =
      ({ runFailures (newCircuitBreaker cfg) (ts ++ [tl]) with
         state := .halfOpen, halfOpenReqs := 0 }, none) ∧
    (cbExecute (runFailures (newCircuitBreaker cfg) (ts ++ [tl])) now false).2 =
      .executed false ∧
    (cbExecute (runFailures (newCircuitBreaker cfg) (ts ++ [tl])) now false).1.state =
      .closed ∧
    (cbExecute (runFailures (newCircuitBreaker cfg) (ts ++ [tl])) now false).1.failures = 0 ∧
    (cbExecute (runFailures (newCircuitBreaker cfg) (ts ++ [tl])) now false).1.halfOpenReqs = 0 ∧
    (cbExecute ((cbExecute (runFailures (newCircuitBreaker cfg) (ts ++ [tl])) now false).1)
        t2 b2).2 = .executed b2 ∧
    (cbExecute (runFailures (newCircuitBreaker cfg) (ts ++ [tl])) now true).1.state = .open := by
  have hopen := runFailures_opens ts tl (newCircuitBreaker cfg)
    (by simp [newCircuitBreaker]) (by simpa [newCircuitBreaker] using hlen)
  obtain ⟨hs, hf, hlf, hmf, hrt, hhm, hhr⟩ := hopen
  have hq : now - (runFailures (newCircuitBreaker cfg) (ts ++ [tl])).lastFailureTime >
      (runFailures (newCircuitBreaker cfg) (ts ++ [tl])).resetTimeout := by
    rw [hlf, hrt]; exact hquiet
  have hsucc := cbExecute_probe_success _ now hs hq
  have hfail := cbExecute_probe_failure _ now hs hq
  refine ⟨hs, beforeRequest_open_expired _ now hs hq, ?_, ?_, ?_, ?_, ?_, ?_⟩
  · rw [hsucc]
  · rw [hsucc]
  · rw [hsucc]
  · rw [hsucc]
  · rw [hsucc]
    exact cbExecute_closed_admits _ t2 b2 rfl
  · rw [hfail]

/-- Witness for C3: defaults (5 failures, 60 s), failures at instants
10..14, probe at instant 75. -/
theorem breaker_recovery_witness :
    (runFailures (newCircuitBreaker ⟨0, 0, 0⟩) ([10, 11, 12, 13] ++ [14])).state = .open ∧
    (cbExecute (runFailures (newCircuitBreaker ⟨0, 0, 0⟩) ([10, 11, 12, 13] ++ [14]))
        75 false).1.state = .closed ∧
    (cbExecute (runFailures (newCircuitBreaker ⟨0, 0, 0⟩) ([10, 11, 12, 13] ++ [14]))
        75 true).1.state = .open := by
  have h := breaker_recovery ⟨0, 0, 0⟩ [10, 11, 12, 13] 14 75 100 false
    (by decide) (by decide)
  exact ⟨h.1, h.2.2.2.1, h.2.2.2.2.2.2.2⟩

/-- With an always-failing upstream, `GenerateChatResponse` returns the
zodiac fallback and no error. -/
lemma generateChatResponse_allFail (u : Nat → Option String)
    (hu : ∀ i, u i = none) (z m : String) :
    generateChatResponse newGeminiClient u z m = (getFallbackChatResponse z, none) := by
  unfold generateChatResponse
  obtain ⟨e1, he1⟩ := generateContent_allFail_isError u hu (buildChatPrompt z m)
  rw [he1]

/-- With an always-failing upstream, `GenerateInsight` returns the
generic fallback insight and no error. -/
lemma generateInsight_allFail (u : Nat → Option String)
    (hu : ∀ i, u i = none) (h : String) :
    generateInsight newGeminiClient u h = (getFallbackInsight, none) := by
  unfold generateInsight
  obtain ⟨e2, he2⟩ := generateContent_allFail_isError u hu (buildInsightPrompt h)
  rw [he2]

set_option maxHeartbeats 2000000 in
/-- Every branch of the fallback table is a non-empty string. -/
lemma getFallbackChatResponse_ne_empty (z : String) :
    getFallbackChatResponse z ≠ "" := by
  unfold getFallbackChatResponse
  split_ifs <;> decide

/-- The fallback insight is a non-empty string. -/
lemma getFallbackInsight_ne_empty : getFallbackInsight ≠ "" := by decide

/-- A tag outside the twelve legal ones receives the generic fallback. -/
lemma getFallbackChatResponse_default (z : String) (hz : z ∉ legalZodiacTags) :
    getFallbackChatResponse z = "Halo! Ada yang bisa aku bantu? Cerita aja santai." := by
  simp only [legalZodiacTags, List.mem_cons, List.not_mem_nil, or_false,
    not_or] at hz
  obtain ⟨h1, h2, h3, h4, h5, h6, h7, h8, h9, h10, h11, h12⟩ := hz
  unfold getFallbackChatResponse
  rw [if_neg h1, if_neg h2, if_neg h3, if_neg h4, if_neg h5, if_neg h6,
    if_neg h7, if_neg h8, if_neg h9, if_neg h10, if_neg h11, if_neg h12]

/-- The twelve legal tags map to pairwise distinct fallbacks. -/
lemma fallbacks_nodup : (legalZodiacTags.map getFallbackChatResponse).Nodup := by
  decide

/-- C4.  Against an upstream that fails every attempt,
`GenerateChatResponse` returns the deterministic per-zodiac fallback with
no error for every tag — each of the twelve legal tags its own distinct
non-empty text, any other tag the generic one — and `GenerateInsight`
likewise returns the non-empty deterministic fallback insight with no
error. -/
theorem fallback_coverage (u : Nat → Option String) (hu : ∀ i, u i = none)
    (z m h : String) :
    generateChatResponse newGeminiClient u z m = (getFallbackChatResponse z, none) ∧
    getFallbackChatResponse z ≠ "" ∧
    generateInsight newGeminiClient u h = (getFallbackInsight, none) ∧
    getFallbackInsight ≠ "" ∧
    (z ∉ legalZodiacTags →
      getFallbackChatResponse z = "Halo! Ada yang bisa aku bantu? Cerita aja santai.") ∧
    (legalZodiacTags.map getFallbackChatResponse).Nodup :=
  ⟨generateChatResponse_allFail u hu z m,
   getFallbackChatResponse_ne_empty z,
   generateInsight_allFail u hu h,
   getFallbackInsight_ne_empty,
   getFallbackChatResponse_default z,
   fallbacks_nodup⟩

/-- Witness for C4 with the Aries tag against an always-failing upstream. -/
theorem fallback_coverage_witness :
    generateChatResponse newGeminiClient (fun _ => none) "Aries" "hi" =
      (getFallbackChatResponse "Aries", none) ∧
    getFallbackChatResponse "Aries" ≠ "" ∧
    generateInsight newGeminiClient (fun _ => none) "history" =
      (getFallbackInsight, none) := by
  have h := fallback_coverage (fun _ => none) (fun _ => rfl) "Aries" "hi" "history"
  exact ⟨h.1, h.2.1, h.2.2.1⟩

/-- C5.  The ingress limiter's `allow`: the call succeeds iff fewer than
`limit` stored timestamps survive the pruning to the trailing window;
on success the current instant is appended; afterwards every stored
timestamp of that identifier is at least `now - window`, and no other
identifier's record changes. -/
theorem ingress_allow_spec (m : String → List Int) (id : String)
    (now window : Int) (limit : Nat) (hw : 0 < window) :
    ((rlAllow m id now window limit).2 = true ↔
      ((m id).filter (fun ts => decide (now - window < ts))).length < limit) ∧
    ((rlAllow m id now window limit).2 = true →
      (rlAllow m id now window limit).1 id =
        (m id).filter (fun ts => decide (now - window < ts)) ++ [now]) ∧
    ((rlAllow m id now window limit).2 = false →
      (rlAllow m id now window limit).1 id =
        (m id).filter (fun ts => decide (now - window < ts))) ∧
    (∀ x ∈ (rlAllow m id now window limit).1 id, now - window ≤ x) ∧
    (∀ k, k ≠ id → (rlAllow m id now window limit).1 k = m k) := by
  by_cases hc : limit ≤ ((m id).filter (fun ts => decide (now - window < ts))).length
  · refine ⟨?_, ?_, ?_, ?_, ?_⟩
    · simp [rlAllow, allowEntry, hc]
    · simp [rlAllow, allowEntry, hc]
    · intro _; simp [rlAllow, allowEntry, hc]
    · intro x hx
      simp only [rlAllow, allowEntry, hc, if_true, if_pos, ite_true] at hx
      simp at hx
      rcases hx with ⟨-, hgt⟩
      omega
    · intro k hk; simp [rlAllow, allowEntry, hc, hk]
  · refine ⟨?_, ?_, ?_, ?_, ?_⟩
    · simp [rlAllow, allowEntry, hc]
      omega
    · intro _; simp [rlAllow, allowEntry, hc]
    · simp [rlAllow, allowEntry, hc]
    · intro x hx
      simp only [rlAllow, allowEntry, hc, ite_false] at hx
      simp at hx
      rcases hx with ⟨-, hgt⟩ | hxnow
      · omega
      · omega
    · intro k hk; simp [rlAllow, allowEntry, hc, hk]

/-- Witness for C5: three in-window timestamps against limit 3 at
instant 60 with a 60 s window. -/
theorem ingress_allow_spec_witness :
    ((rlAllow (fun _ => [1, 50, 59]) "u" 60 60 3).2 = true ↔
      (([1, 50, 59] : List Int).filter
        (fun ts => decide ((60 : Int) - 60 < ts))).length < 3) ∧
    (∀ x ∈ (rlAllow (fun _ => [1, 50, 59]) "u" 60 60 3).1 "u",
      (60 : Int) - 60 ≤ x) := by
  have h := ingress_allow_spec (fun _ => [1, 50, 59]) "u" 60 60 3 (by decide)
  exact ⟨h.1, h.2.2.2.1⟩

/-- C6 counterexample.  The claim maps `ErrQueueClosed` to HTTP 503; in
the source the handler checks only for `ErrQueueFull` and every other
enqueue error falls to `response.InternalServerError`, so a closed queue
yields 500, not 503. -/
theorem queueClosed_maps_to_500 :
    (handlerEnqueue ({ newRequestQueue Nat ⟨1, 1⟩ with closed := true }) 0).2 =
      some 500 ∧ (500 : Nat) ≠ 503 := by
  exact ⟨rfl, by decide⟩

/-- C6 amended.  When `Enqueue` fails with `ErrQueueFull` the handler
responds 429; when it fails with `ErrQueueClosed` the handler responds
500 (Internal Server Error), not 503. -/
theorem handler_enqueue_status {α : Type} (q : RequestQueue α) (r : α) :
    (q.closed = true → handlerEnqueue q r = (q, some 500)) ∧
    (q.closed = false → q.capacity ≤ q.queue.length →
      handlerEnqueue q r =
        ({ q with totalDropped := q.totalDropped + 1 }, some 429)) := by
  constructor
  · intro h
    simp [handlerEnqueue, enqueue, h, enqueueFailureStatus]
  · intro h1 h2
    have hnot : ¬ (q.queue.length < q.capacity) := by omega
    simp [handlerEnqueue, enqueue, h1, hnot, enqueueFailureStatus]

/-- Witness for the amended C6: a closed queue maps to 500 and a full
open queue maps to 429. -/
theorem handler_enqueue_status_witness :
    handlerEnqueue ({ newRequestQueue Nat ⟨1, 1⟩ with closed := true }) 0 =
      ({ newRequestQueue Nat ⟨1, 1⟩ with closed := true }, some 500) ∧
    handlerEnqueue ({ newRequestQueue Nat ⟨1, 1⟩ with queue := [9] }) 0 =
      ({ newRequestQueue Nat ⟨1, 1⟩ with queue := [9], totalDropped := 1 },
       some 429) := by
  constructor
  · exact (handler_enqueue_status _ 0).1 rfl
  · exact (handler_enqueue_status ({ newRequestQueue Nat ⟨1, 1⟩ with queue := [9] }) 0).2
      rfl (by decide)

/-- C7 counterexample.  With capacity 1, enqueueing two requests leaves
`totalEnqueued = 1` (drops are not counted as enqueued) while
`processed + failed + dropped + inFlight + depth = 2`, refuting
`enqueued = processed + failed + dropped + inFlight + depth`. -/
theorem metrics_identity_counterexample :
    ¬ ((runQueue Nat ⟨1, 1⟩ [QueueOp.enq 7, QueueOp.enq 8]).totalEnqueued =
       (runQueue Nat ⟨1, 1⟩ [QueueOp.enq 7, QueueOp.enq 8]).totalProcessed +
       (runQueue Nat ⟨1, 1⟩ [QueueOp.enq 7, QueueOp.enq 8]).totalFailed +
       (runQueue Nat ⟨1, 1⟩ [QueueOp.enq 7, QueueOp.enq 8]).totalDropped +
       (runQueue Nat ⟨1, 1⟩ [QueueOp.enq 7, QueueOp.enq 8]).inFlight +
       (runQueue Nat ⟨1, 1⟩ [QueueOp.enq 7, QueueOp.enq 8]).queue.length) := by
  decide

/-- C7 amended.  After every sequence of queue operations the accepted
requests balance: `enqueued = processed + failed + inFlight + depth`;
dropped offers are counted only in `totalDropped`, which never enters
`totalEnqueued`. -/
theorem metrics_identity_amended {α : Type} (cfg : QueueConfig)
    (ops : List (QueueOp α)) :
    (runQueue α cfg ops).totalEnqueued =
      (runQueue α cfg ops).totalProcessed + (runQueue α cfg ops).totalFailed +
      (runQueue α cfg ops).inFlight + (runQueue α cfg ops).queue.length :=
  (runQueue_inv cfg ops).2

/-- C8.  `Execute` fails fast without invoking the protected function:
an Open breaker within its quiet period returns `ErrCircuitOpen` with
the state unchanged, and a HalfOpen breaker whose probe count has
reached `halfOpenMaxReqs` returns `ErrTooManyRequests` with the state
unchanged; in both cases the outcome is `rejected`, meaning fn was
never run. -/
theorem execute_fails_fast (cb : CircuitBreaker) (now : Int) (b : Bool) :
    (cb.state = .open → now - cb.lastFailureTime < cb.resetTimeout →
      cbExecute cb now b = (cb, .rejected .circuitOpen)) ∧
    (cb.state = .halfOpen → cb.halfOpenMaxReqs ≤ cb.halfOpenReqs →
      cbExecute cb now b = (cb, .rejected .tooManyRequests)) := by
  obtain ⟨mf, rt, hm, st, f, lft, hr⟩ := cb
  constructor
  · intro hst hlt
    simp only at hst
    subst hst
    simp only at hlt
    have hng : ¬ (now - lft > rt) := by omega
    simp [cbExecute, beforeRequest, hng]
  · intro hst hge
    simp only at hst
    subst hst
    simp only at hge
    simp [cbExecute, beforeRequest, hge]

/-- Witness for C8: an Open breaker 30 s after its last failure with a
60 s timeout, and a HalfOpen breaker with its single probe slot used. -/
theorem execute_fails_fast_witness :
    cbExecute ⟨5, 60, 1, .open, 5, 0, 0⟩ 30 true =
      (⟨5, 60, 1, .open, 5, 0, 0⟩, .rejected .circuitOpen) ∧
    cbExecute ⟨5, 60, 1, .halfOpen, 0, 0, 1⟩ 30 true =
      (⟨5, 60, 1, .halfOpen, 0, 0, 1⟩, .rejected .tooManyRequests) := by
  constructor
  · exact (execute_fails_fast ⟨5, 60, 1, .open, 5, 0, 0⟩ 30 true).1 rfl (by decide)
  · exact (execute_fails_fast ⟨5, 60, 1, .halfOpen, 0, 0, 1⟩ 30 true).2 rfl
      (by decide)

/-- C9 counterexample.  The claim lists backoff delays 1 s, 2 s, 4 s
between attempts; with `maxRetries = 3` the loop sleeps only before the
second and third attempts, so a run in which every attempt fails sleeps
exactly 1 s and 2 s — no 4 s delay ever occurs. -/
theorem retry_backoff_counterexample :
    (generateContent newGeminiClient (fun _ => none) "hi").delays = [1, 2] ∧
    4 ∉ (generateContent newGeminiClient (fun _ => none) "hi").delays := by
  exact ⟨rfl, by decide⟩

/-- C9 amended.  `GenerateContent` rejects the empty prompt with
`ErrInvalidPrompt` before any upstream attempt; a non-empty prompt is
tried at most 3 times with backoff sleeps of 1 s and then 2 s before the
retries (the 4 s step of the doubling schedule is never reached); the
first successful attempt's text is returned; if all attempts fail the
result is the empty text with `ErrAIUnavailable`. -/
theorem generateContent_retry_spec (u : Nat → Option String) (p : String)
    (i : Nat) (t : String) :
    (p = "" → generateContent newGeminiClient u p = ⟨[], 0, .error .invalidPrompt⟩) ∧
    (p ≠ "" → (∀ j, u j = none) →
      generateContent newGeminiClient u p = ⟨[1, 2], 3, .error .aiUnavailable⟩) ∧
    (p ≠ "" → i < 3 → (∀ j, j < i → u j = none) → u i = some t →
      generateContent newGeminiClient u p = ⟨List.take i [1, 2], i + 1, .ok t⟩) := by
  refine ⟨?_, ?_, ?_⟩
  · intro hp; simp [generateContent, hp]
  · intro hp hu; exact generateContent_allFail u hu p hp
  · intro hp hi hb hit; exact generateContent_firstSuccess u p hp i t hi hb hit

/-- Witness for the amended C9: empty prompt, all-failing upstream, and
an upstream succeeding on the first attempt. -/
theorem generateContent_retry_spec_witness :
    generateContent newGeminiClient (fun _ => none) "" =
      ⟨[], 0, .error .invalidPrompt⟩ ∧
    generateContent newGeminiClient (fun _ => none) "hi" =
      ⟨[1, 2], 3, .error .aiUnavailable⟩ ∧
    generateContent newGeminiClient (fun _ => some "ok") "hi" =
      ⟨[], 1, .ok "ok"⟩ := by
  refine ⟨?_, ?_, ?_⟩
  · exact (generateContent_retry_spec (fun _ => none) "" 0 "x").1 rfl
  · exact (generateContent_retry_spec (fun _ => none) "hi" 0 "x").2.1
      (by decide) (fun _ => rfl)
  · exact (generateContent_retry_spec (fun _ => some "ok") "hi" 0 "ok").2.2
      (by decide) (by omega) (fun j hj => absurd hj (Nat.not_lt_zero j)) rfl

/-- C10.  The breaker's failure bookkeeping never resets on failure:
`afterRequest` on a failed call stamps `lastFailureTime` with the
current instant and increments the consecutive-failure counter (so it is
never zeroed by a failure); a successful call zeroes the counter exactly
in Closed or HalfOpen (an Open-state success leaves it untouched);
`Reset` zeroes it; and from Open, `beforeRequest` admits (moving to
HalfOpen) precisely when more than `resetTimeout` has elapsed since the
most recent failure. -/
theorem failure_bookkeeping (cb : CircuitBreaker) (now : Int) :
    (afterRequest cb now true).lastFailureTime = now ∧
    (afterRequest cb now true).failures = cb.failures + 1 ∧
    (afterRequest cb now false).failures =
      (if cb.state = .open then cb.failures else 0) ∧
    (cbReset cb).failures = 0 ∧
    (cb.state = .open →
      (((beforeRequest cb now).2 = none ∧
        (beforeRequest cb now).1.state = .halfOpen) ↔
        now - cb.lastFailureTime > cb.resetTimeout)) := by
  obtain ⟨mf, rt, hm, st, f, lft, hr⟩ := cb
  refine ⟨?_, ?_, ?_, ?_, ?_⟩
  · cases st <;> by_cases hge : f + 1 ≥ mf <;> simp [afterRequest, hge]
  · cases st <;> by_cases hge : f + 1 ≥ mf <;> simp [afterRequest, hge]
  · cases st <;> simp [afterRequest]
  · simp [cbReset]
  · intro hst
    simp only at hst
    subst hst
    by_cases hq : now - lft > rt
    · simp [beforeRequest, hq]
    · simp [beforeRequest, hq]

/-- Witness for C10 at an Open breaker with last failure at instant 10,
queried at instant 75. -/
theorem failure_bookkeeping_witness :
    (afterRequest ⟨5, 60, 1, .open, 5, 10, 0⟩ 75 true).lastFailureTime = 75 ∧
    (afterRequest ⟨5, 60, 1, .open, 5, 10, 0⟩ 75 true).failures = 6 ∧
    (cbReset ⟨5, 60, 1, .open, 5, 10, 0⟩).failures = 0 ∧
    (((beforeRequest ⟨5, 60, 1, .open, 5, 10, 0⟩ 75).2 = none ∧
      (beforeRequest ⟨5, 60, 1, .open, 5, 10, 0⟩ 75).1.state = .halfOpen) ↔
      (75 : Int) - 10 > 60) := by
  have h := failure_bookkeeping ⟨5, 60, 1, .open, 5, 10, 0⟩ 75
  exact ⟨h.1, h.2.1, h.2.2.2.1, h.2.2.2.2 rfl⟩
